import Mathlib

/-!
# Verification of the `img-manipulation` image pipeline

A shallow embedding of `src/main.py` (class `ImgProcessor`): a batch image
pipeline that scans a directory for `.png`/`.jpg` files and, per file,
conditionally upscales (2x super-resolution), conditionally downscales to a
target height, and converts `.png`/`.jpeg`-suffixed files to JPEG.

The file system is modelled as a single directory (`St`): a directory path, a
validity flag, and an association list from entry name to entry (subdirectory,
decodable image file, or undecodable file).  Paths are modelled as a directory
component plus an entry name (`Fp`); `os.listdir` never yields names containing
a separator, so the last path component of every joined path is the entry name.
Python exceptions are modelled with `Except`: each operation returns the state
reached so far (Python exceptions do not roll back completed writes or log
lines) together with either a value or the raised error.  All logger calls and
all file writes are recorded in the state.

Python's `img_height / height` is binary64 float division and
`int(width * scaling_factor)` truncates the binary64 product, so the float
arithmetic is embedded exactly: `roundB64` is round-to-nearest, ties-to-even at
53 significand bits (inputs here are far from the subnormal/overflow range), and
`pyNewWidth` composes it the way `resize_down_image_height` does.

The external libraries are embedded with their documented behaviour at the call
sites used by the code: PIL `Image.open` raises on a path that is not a
decodable image file; PIL `Image.save` looks up an explicit `format` tag in its
save-handler registry (the conventional identifier is `JPEG`; an unregistered
tag such as `JPG` raises `KeyError`) and otherwise derives the format from the
lowercased file extension; `cv2.imread` returns no image (None) instead of
raising; `sr.upsample` doubles both dimensions (FSRCNN x2) and raises when given
None; `cv2.imwrite` reports failure through its ignored return value.
-/

deriving instance DecidableEq for Except

namespace ImgPipeline

/-! ## Strings: lowercasing and `pathlib.Path.suffix` -/

/-- Lowercase every character of a string (models `str.lower` on suffixes). -/
def lowerStr (s : String) : String :=
  String.mk (s.toList.map Char.toLower)

/-- Uppercase every character of a string (models `str.upper`, used by PIL on
the `format` argument of `Image.save`). -/
def upperStr (s : String) : String :=
  String.mk (s.toList.map Char.toUpper)

/-- Index of the last occurrence of a character in a list, if any. -/
def lastIdxOf (c : Char) : List Char → Option Nat
  | [] => none
  | x :: xs =>
    match lastIdxOf c xs with
    | some i => some (i + 1)
    | none => if x = c then some 0 else none

/-- `pathlib.Path(name).suffix` for a single path component: the final
extension including its dot, and `""` when the last dot is absent, leading, or
trailing (CPython: `name[i:]` when `0 < i < len(name) - 1`, else `''`). -/
def nameSuffix (s : String) : String :=
  let cs := s.toList
  match lastIdxOf '.' cs with
  | some i => if 0 < i ∧ i < cs.length - 1 then String.mk (cs.drop i) else ""
  | none => ""

/-! ## Binary64 arithmetic of the downscaler

`resize_down_image_height` computes `scaling_factor = img_height / height`
(binary64 division) and `int(width * scaling_factor)` (binary64 product,
truncated).  Values are represented as exact fractions `num / den`. -/

/-- Number of bits of a natural number, with explicit fuel so that the kernel
can evaluate it by structural recursion. -/
def bitlenFuel : Nat → Nat → Nat
  | 0, _ => 0
  | fuel + 1, n => if n = 0 then 0 else bitlenFuel fuel (n / 2) + 1

/-- Number of bits of a natural number (`0` for `0`). -/
def bitlen (n : Nat) : Nat :=
  bitlenFuel n n

/-- Decides `2 ^ e ≤ a / b` for naturals `a`, `b > 0` and an integer `e`. -/
def pow2LE (a b : Nat) (e : Int) : Bool :=
  if 0 ≤ e then decide (b * 2 ^ e.toNat ≤ a) else decide (b ≤ a * 2 ^ (-e).toNat)

/-- `⌊log₂ (a / b)⌋` for positive `a`, `b`; the bit-length difference is the
candidate, corrected downward by one exact comparison. -/
def floorLog2Q (a b : Nat) : Int :=
  let e0 : Int := (bitlen a : Int) - (bitlen b : Int)
  if pow2LE a b e0 then e0 else e0 - 1

/-- Round the fraction `a / b` to the nearest binary64 value (53 significand
bits, ties to even; normal range only, which covers every quantity the
downscaler produces), returned as a fraction `(num, den)`. -/
def roundB64 (a b : Nat) : Nat × Nat :=
  let e := floorLog2Q a b
  let k : Int := 52 - e
  let (num, den) := if 0 ≤ k then (a * 2 ^ k.toNat, b) else (a, b * 2 ^ (-k).toNat)
  let q0 := num / den
  let r := num % den
  let n :=
    if 2 * r < den then q0
    else if den < 2 * r then q0 + 1
    else if q0 % 2 = 0 then q0 else q0 + 1
  if 0 ≤ k then (n, 2 ^ k.toNat) else (n * 2 ^ (-k).toNat, 1)

/-- The new width computed by `resize_down_image_height` for an image of width
`w` and height `curH` being brought to height `targetH`:
`int(w * (targetH / curH))` in Python binary64 arithmetic. -/
def pyNewWidth (w targetH curH : Nat) : Nat :=
  let f := roundB64 targetH curH
  let p := roundB64 (w * f.1) f.2
  p.1 / p.2

/-! ## Data model -/

/-- A decoded image: its pixel dimensions. -/
structure Img where
  width : Nat
  height : Nat
deriving DecidableEq, Repr

/-- A directory entry: a subdirectory, or a regular file that decodes to an
image (`file (some img)`) or does not decode (`file none`). -/
inductive Entry where
  | dir : Entry
  | file : Option Img → Entry
deriving DecidableEq, Repr

/-- A file-system path: the directory component and the entry name.  Names
produced by `os.listdir` contain no separator, so the `pathlib` suffix of the
joined path is `nameSuffix` of the name. -/
structure Fp where
  dir : String
  name : String
deriving DecidableEq, Repr

/-- One logger call of `main.py`, one constructor per call site. -/
inductive Event where
  | errInvalidDir : String → Event
  | errNotFile : Fp → Event
  | warnTooSmall : Nat → Nat → Event
  | warnFailedUpscale : Fp → Event
  | infoUpscaled : Fp → Event
  | warnFailedResize : Fp → Event
  | infoResized : Fp → Event
  | warnFailedConvert : Fp → Event
  | infoConverted : Fp → Event
deriving DecidableEq, Repr

/-- The world the pipeline acts on: one directory (path, existence flag,
entries in listing order), the log emitted so far, and the file writes
performed so far. -/
structure St where
  dirPath : String
  isDir : Bool
  entries : List (String × Entry)
  log : List Event
  writes : List Fp
deriving DecidableEq, Repr

/-- One Python exception, one constructor per raise site the code can hit. -/
inductive PyErr where
  /-- PIL `Image.open` on a path that is not a decodable image file. -/
  | openError : Fp → PyErr
  /-- `cv2.error`: `sr.upsample(None)` after `cv2.imread` returned None. -/
  | cvError : PyErr
  /-- PIL `Image.save` with a `format` tag absent from its save registry. -/
  | keyError : String → PyErr
  /-- PIL `Image.save` with no `format` and an unknown file extension. -/
  | valueError : String → PyErr
  /-- `ZeroDivisionError` from `img_height / height` at height 0. -/
  | zeroDivision : PyErr
deriving DecidableEq, Repr

/-- Append a logger event. -/
def logEv (st : St) (e : Event) : St :=
  { st with log := st.log ++ [e] }

/-- First entry listed under a name, if any. -/
def findEntry : List (String × Entry) → String → Option Entry
  | [], _ => none
  | (m, e) :: rest, n => if m = n then some e else findEntry rest n

/-- Look up the entry a path denotes: its directory component must be the
modelled directory (which must exist), and its name is looked up in the
listing. -/
def lookupEntry (st : St) (fp : Fp) : Option Entry :=
  if fp.dir = st.dirPath ∧ st.isDir = true then
    findEntry st.entries fp.name
  else
    none

/-- Replace the entry under a name, or append it if absent. -/
def setEntry : List (String × Entry) → String → Entry → List (String × Entry)
  | [], n, e => [(n, e)]
  | (m, e0) :: rest, n, e =>
    if m = n then (n, e) :: rest else (m, e0) :: setEntry rest n e

/-- Encode an image to a path: record the write and, when the path lies in the
modelled directory, replace that entry's content. -/
def writeImgFile (st : St) (fp : Fp) (img : Img) : St :=
  if fp.dir = st.dirPath ∧ st.isDir = true then
    { st with
      entries := setEntry st.entries fp.name (Entry.file (some img)),
      writes := st.writes ++ [fp] }
  else
    { st with writes := st.writes ++ [fp] }

/-! ## External library primitives -/

/-- `Path(fp).is_file()`. -/
def pathIsFile (st : St) (fp : Fp) : Bool :=
  match lookupEntry st fp with
  | some (Entry.file _) => true
  | _ => false

/-- PIL `Image.open`: yields the decoded image, raising on anything that is not
a decodable regular file (`UnidentifiedImageError`, `FileNotFoundError`, ...,
collapsed into one error). -/
def pilOpen (st : St) (fp : Fp) : Except PyErr Img :=
  match lookupEntry st fp with
  | some (Entry.file (some img)) => Except.ok img
  | _ => Except.error (PyErr.openError fp)

/-- Pillow's save-handler registry keys (its conventional format identifiers;
the ones relevant to image files of this pipeline). `JPG` is not among them. -/
def pilSaveFormats : List String :=
  ["BMP", "GIF", "JPEG", "PNG", "PPM", "TIFF", "WEBP"]

/-- Pillow's extension-to-format registry (the part relevant here), used by
`Image.save` when no explicit `format` is passed; keyed by lowercased
extension. -/
def pilExtFormat : List (String × String) :=
  [(".bmp", "BMP"), (".gif", "GIF"), (".jpg", "JPEG"), (".jpeg", "JPEG"),
   (".png", "PNG"), (".ppm", "PPM"), (".tif", "TIFF"), (".tiff", "TIFF"),
   (".webp", "WEBP")]

/-- PIL `Image.save`: with an explicit `format` tag, look it up (uppercased) in
the save registry and raise `KeyError` when absent; with no tag, derive the
format from the lowercased extension and raise `ValueError` when unknown.  On
success the encoded image replaces the file's bytes.  (The `quality` keyword
only shapes the encoded bytes, which are not modelled.) -/
def pilSave (st : St) (img : Img) (fp : Fp) (fmt : Option String) :
    St × Except PyErr Unit :=
  match fmt with
  | some f =>
    if upperStr f ∈ pilSaveFormats then
      (writeImgFile st fp img, Except.ok ())
    else
      (st, Except.error (PyErr.keyError (upperStr f)))
  | none =>
    match pilExtFormat.lookup (lowerStr (nameSuffix fp.name)) with
    | some _ => (writeImgFile st fp img, Except.ok ())
    | none => (st, Except.error (PyErr.valueError fp.name))

/-- PIL `Image.resize`: a fresh image with the requested dimensions. -/
def pilResize (w h : Nat) : Img :=
  { width := w, height := h }

/-- `cv2.imread`: the decoded image, or None for anything unreadable. -/
def cvImread (st : St) (fp : Fp) : Option Img :=
  match lookupEntry st fp with
  | some (Entry.file (some img)) => some img
  | _ => none

/-- `self.sr.upsample` with the FSRCNN x2 model: doubles both dimensions;
raises `cv2.error` when handed None. -/
def srUpsample : Option Img → Except PyErr Img
  | none => Except.error PyErr.cvError
  | some img => Except.ok { width := 2 * img.width, height := 2 * img.height }

/-- Extensions `cv2.imwrite` has an encoder for (the relevant ones). -/
def cvImwriteExts : List String :=
  [".png", ".jpg", ".jpeg", ".bmp", ".tif", ".tiff", ".webp"]

/-- `cv2.imwrite`: encodes by extension; reports failure through its return
value (which the caller ignores) rather than by raising. -/
def cvImwrite (st : St) (fp : Fp) (img : Img) : St × Bool :=
  if lowerStr (nameSuffix fp.name) ∈ cvImwriteExts then
    (writeImgFile st fp img, true)
  else
    (st, false)

/-! ## `ImgProcessor` methods (from `src/main.py`)

Each method takes the world state and returns the state it reached together
with either its Python return value or the exception it raised. -/

/-- `list_image_fps(dir_path, valid_exts)`: if `dir_path` is not a directory,
log an error and return `[]`; otherwise return, in listing order, the joined
path of every entry whose name's lowercased suffix is in `valid_exts`.  (No
check that the entry is a regular file, and no recursion.) -/
def list_image_fps (st : St) (dirPath : String) (validExts : List String) :
    St × List Fp :=
  if dirPath = st.dirPath ∧ st.isDir = true then
    (st, st.entries.filterMap (fun p =>
      if lowerStr (nameSuffix p.1) ∈ validExts then
        some { dir := dirPath, name := p.1 }
      else none))
  else
    (logEv st (Event.errInvalidDir dirPath), [])

/-- `get_image_size_from_fp(img_fp)`: `{}` (here `none`) with an error logged
when the path is not a regular file; otherwise `Image.open` — which raises on
an undecodable file — and the image's width and height. -/
def get_image_size_from_fp (st : St) (imgFp : Fp) :
    St × Except PyErr (Option Img) :=
  if pathIsFile st imgFp = true then
    match pilOpen st imgFp with
    | Except.ok img => (st, Except.ok (some img))
    | Except.error e => (st, Except.error e)
  else
    (logEv st (Event.errNotFile imgFp), Except.ok none)

/-- `upscale_image(img_input_fp, img_output_fp)`: `cv2.imread`, `sr.upsample`
(2x), `cv2.imwrite`, then `return True` unconditionally — the `imwrite` result
is discarded, so the only non-`True` outcome is a raised exception. -/
def upscale_image (st : St) (imgInputFp imgOutputFp : Fp) :
    St × Except PyErr Bool :=
  let image := cvImread st imgInputFp
  match srUpsample image with
  | Except.error e => (st, Except.error e)
  | Except.ok result =>
    let w := cvImwrite st imgOutputFp result
    (w.1, Except.ok true)

/-- `resize_down_image_height(img_input_fp, img_output_fp, img_height)`: open
the image; if its height is below the target, log a warning and return `False`
without writing; otherwise resize to
`(int(width * (img_height / height)), img_height)` — binary64 arithmetic — and
save to the output path (format derived from its extension). -/
def resize_down_image_height (st : St) (imgInputFp imgOutputFp : Fp)
    (imgHeight : Nat) : St × Except PyErr Bool :=
  match pilOpen st imgInputFp with
  | Except.error e => (st, Except.error e)
  | Except.ok img =>
    if img.height < imgHeight then
      (logEv st (Event.warnTooSmall img.height imgHeight), Except.ok false)
    else if img.height = 0 then
      (st, Except.error PyErr.zeroDivision)
    else
      let newWidth := pyNewWidth img.width imgHeight img.height
      let resized := pilResize newWidth imgHeight
      let s := pilSave st resized imgOutputFp none
      match s.2 with
      | Except.error e => (s.1, Except.error e)
      | Except.ok _ => (s.1, Except.ok true)

/-- `convert_img_to_jpg(img_input_fp, img_output_fp, quality)`: open, convert
to RGB (dimensions unchanged), and save with the explicit format tag `"JPG"`. -/
def convert_img_to_jpg (st : St) (imgInputFp imgOutputFp : Fp)
    (quality : Nat) : St × Except PyErr Bool :=
  match pilOpen st imgInputFp with
  | Except.error e => (st, Except.error e)
  | Except.ok pngImage =>
    let jpgImage := pngImage
    let s := pilSave st jpgImage imgOutputFp (some "JPG")
    match s.2 with
    | Except.error e => (s.1, Except.error e)
    | Except.ok _ => (s.1, Except.ok true)

/-- The condition at line 124 of `main.py` under which the pipeline invokes the
format normalizer: the original path's suffix, compared case-sensitively, is
`.png` or `.jpeg`. -/
def convertTrigger (fp : Fp) : Bool :=
  nameSuffix fp.name ∈ [".png", ".jpeg"]

/-- Lines 102-107 of `main.py`: if the probed height is below the minimum
(strict `<`), upscale in place and log the outcome. -/
def phaseUpscale (st : St) (fp : Fp) (minHeight : Nat) (size0 : Img) :
    St × Except PyErr Unit :=
  if size0.height < minHeight then
    match upscale_image st fp fp with
    | (st2, Except.error e) => (st2, Except.error e)
    | (st2, Except.ok b) =>
      (if b then logEv st2 (Event.infoUpscaled fp)
       else logEv st2 (Event.warnFailedUpscale fp), Except.ok ())
  else (st, Except.ok ())

/-- Lines 115-121 of `main.py`: if the re-probed height exceeds the minimum
(strict `>`), downscale in place to exactly the minimum and log the outcome. -/
def phaseDownscale (st : St) (fp : Fp) (minHeight : Nat) (size1 : Img) :
    St × Except PyErr Unit :=
  if minHeight < size1.height then
    match resize_down_image_height st fp fp minHeight with
    | (st4, Except.error e) => (st4, Except.error e)
    | (st4, Except.ok b) =>
      (if b then logEv st4 (Event.infoResized fp)
       else logEv st4 (Event.warnFailedResize fp), Except.ok ())
  else (st, Except.ok ())

/-- Lines 123-129 of `main.py`: if the original path's suffix is `.png` or
`.jpeg` (case-sensitive), convert in place to JPEG and log the outcome. -/
def phaseConvert (st : St) (fp : Fp) : St × Except PyErr Unit :=
  if convertTrigger fp then
    match convert_img_to_jpg st fp fp 90 with
    | (st5, Except.error e) => (st5, Except.error e)
    | (st5, Except.ok b) =>
      (if b then logEv st5 (Event.infoConverted fp)
       else logEv st5 (Event.warnFailedConvert fp), Except.ok ())
  else (st, Except.ok ())

/-- The body of the `for img_fp in img_fps` loop of
`process_supermarket_images`, for one file: probe (skip the file when the probe
reports no size), conditionally upscale, re-probe, conditionally downscale,
conditionally convert. -/
def processOne (st0 : St) (fp : Fp) (minHeight : Nat) : St × Except PyErr Unit :=
  match get_image_size_from_fp st0 fp with
  | (st1, Except.error e) => (st1, Except.error e)
  | (st1, Except.ok none) => (st1, Except.ok ())
  | (st1, Except.ok (some size0)) =>
    match phaseUpscale st1 fp minHeight size0 with
    | (st2, Except.error e) => (st2, Except.error e)
    | (st2, Except.ok _) =>
      match get_image_size_from_fp st2 fp with
      | (st3, Except.error e) => (st3, Except.error e)
      | (st3, Except.ok none) => (st3, Except.ok ())
      | (st3, Except.ok (some size1)) =>
        match phaseDownscale st3 fp minHeight size1 with
        | (st4, Except.error e) => (st4, Except.error e)
        | (st4, Except.ok _) => phaseConvert st4 fp

/-- The `for` loop of `process_supermarket_images` over the scanned paths; an
exception raised while processing one file propagates (there is no
`try`/`except` in the source). -/
def processAll (st : St) (fps : List Fp) (minHeight : Nat) :
    St × Except PyErr Unit :=
  match fps with
  | [] => (st, Except.ok ())
  | fp :: rest =>
    match processOne st fp minHeight with
    | (st1, Except.error e) => (st1, Except.error e)
    | (st1, Except.ok _) => processAll st1 rest minHeight

/-- `process_supermarket_images(img_dir, min_height)`: `False` with an error
logged when `img_dir` is not a directory; otherwise scan for `.png`/`.jpg`
files, run the per-file loop, and return `True`. -/
def process_supermarket_images (st : St) (imgDir : String) (minHeight : Nat) :
    St × Except PyErr Bool :=
  if imgDir = st.dirPath ∧ st.isDir = true then
    let scanned := list_image_fps st imgDir [".png", ".jpg"]
    match processAll scanned.1 scanned.2 minHeight with
    | (st2, Except.error e) => (st2, Except.error e)
    | (st2, Except.ok _) => (st2, Except.ok true)
  else
    (logEv st (Event.errInvalidDir imgDir), Except.ok false)

/-! ## Helper lemmas -/

@[simp]
theorem logEv_dirPath (st : St) (e : Event) : (logEv st e).dirPath = st.dirPath := rfl

@[simp]
theorem logEv_isDir (st : St) (e : Event) : (logEv st e).isDir = st.isDir := rfl

@[simp]
theorem logEv_entries (st : St) (e : Event) : (logEv st e).entries = st.entries := rfl

@[simp]
theorem logEv_writes (st : St) (e : Event) : (logEv st e).writes = st.writes := rfl

@[simp]
theorem logEv_log (st : St) (e : Event) : (logEv st e).log = st.log ++ [e] := rfl

@[simp]
theorem lookupEntry_logEv (st : St) (e : Event) (fp : Fp) :
    lookupEntry (logEv st e) fp = lookupEntry st fp := rfl

theorem writeImgFile_dirPath (st : St) (fp : Fp) (img : Img) :
    (writeImgFile st fp img).dirPath = st.dirPath := by
  unfold writeImgFile; split <;> rfl

theorem writeImgFile_isDir (st : St) (fp : Fp) (img : Img) :
    (writeImgFile st fp img).isDir = st.isDir := by
  unfold writeImgFile; split <;> rfl

theorem writeImgFile_log (st : St) (fp : Fp) (img : Img) :
    (writeImgFile st fp img).log = st.log := by
  unfold writeImgFile; split <;> rfl

theorem writeImgFile_writes (st : St) (fp : Fp) (img : Img) :
    (writeImgFile st fp img).writes = st.writes ++ [fp] := by
  unfold writeImgFile; split <;> rfl

theorem findEntry_setEntry_self (l : List (String × Entry)) (n : String)
    (e : Entry) : findEntry (setEntry l n e) n = some e := by
  induction l with
  | nil => simp [setEntry, findEntry]
  | cons hd tl ih =>
    obtain ⟨m, e0⟩ := hd
    by_cases h : m = n
    · simp [setEntry, findEntry, h]
    · simp [setEntry, findEntry, h, ih]

/-- A successful lookup pins the path's directory component to the modelled
directory and forces the directory to exist. -/
theorem lookupEntry_some_dir {st : St} {fp : Fp} {e : Entry}
    (h : lookupEntry st fp = some e) :
    fp.dir = st.dirPath ∧ st.isDir = true := by
  unfold lookupEntry at h
  by_cases hc : fp.dir = st.dirPath ∧ st.isDir = true
  · exact hc
  · rw [if_neg hc] at h; exact absurd h (by simp)

/-- Writing to a path in the modelled directory makes its entry the written
image. -/
theorem lookupEntry_writeImgFile_self {st : St} {fp : Fp} (img : Img)
    (hdir : fp.dir = st.dirPath) (hisdir : st.isDir = true) :
    lookupEntry (writeImgFile st fp img) fp = some (Entry.file (some img)) := by
  have hw : writeImgFile st fp img =
      { st with entries := setEntry st.entries fp.name (Entry.file (some img)),
                writes := st.writes ++ [fp] } := by
    unfold writeImgFile; rw [if_pos ⟨hdir, hisdir⟩]
  rw [hw]
  unfold lookupEntry
  rw [if_pos ⟨hdir, hisdir⟩]
  exact findEntry_setEntry_self st.entries fp.name (Entry.file (some img))

/-- A path whose entry is a decodable image probes to that image's size with no
state change. -/
theorem gis_of_img {st : St} {fp : Fp} {img : Img}
    (h : lookupEntry st fp = some (Entry.file (some img))) :
    get_image_size_from_fp st fp = (st, Except.ok (some img)) := by
  unfold get_image_size_from_fp pathIsFile pilOpen
  rw [h]
  simp

/-- A path whose entry is a decodable image opens to that image. -/
theorem pilOpen_of_lookup {st : St} {fp : Fp} {img : Img}
    (h : lookupEntry st fp = some (Entry.file (some img))) :
    pilOpen st fp = Except.ok img := by
  unfold pilOpen; rw [h]

/-- A path that denotes no regular file (missing, or a subdirectory) probes to
"no size": the error is logged and the empty result returned, without raising. -/
theorem gis_of_not_file {st : St} {fp : Fp}
    (h : pathIsFile st fp = false) :
    get_image_size_from_fp st fp = (logEv st (Event.errNotFile fp), Except.ok none) := by
  unfold get_image_size_from_fp
  rw [h]
  simp

/-- On a decodable image, `upscale_image` always runs through `cv2.imread`,
`sr.upsample` (doubling both dimensions), `cv2.imwrite`, and returns `True`. -/
theorem upscale_image_of_lookup {st : St} {fp : Fp} {img : Img}
    (h : lookupEntry st fp = some (Entry.file (some img))) :
    upscale_image st fp fp =
      ((cvImwrite st fp { width := 2 * img.width, height := 2 * img.height }).1,
        Except.ok true) := by
  unfold upscale_image cvImread
  rw [h]
  rfl

/-- `convert_img_to_jpg` on any decodable input raises `KeyError: 'JPG'`
(Pillow has no save handler registered under `JPG`) and leaves the state
untouched: nothing is written. -/
theorem convert_keyError {st : St} {fp outFp : Fp} {img : Img} (q : Nat)
    (h : pilOpen st fp = Except.ok img) :
    convert_img_to_jpg st fp outFp q = (st, Except.error (PyErr.keyError "JPG")) := by
  unfold convert_img_to_jpg
  rw [h]
  have hreg : (upperStr "JPG" ∈ pilSaveFormats) = False := by decide
  simp only [pilSave, hreg, if_false]
  have : upperStr "JPG" = "JPG" := by decide
  rw [this]

/-- The downscaler invoked on an image below the target height: warning
logged, `False` returned, no write performed. -/
theorem resize_down_warn {st : St} {inFp outFp : Fp} {t : Nat} {img : Img}
    (h : pilOpen st inFp = Except.ok img) (hlt : img.height < t) :
    resize_down_image_height st inFp outFp t =
      (logEv st (Event.warnTooSmall img.height t), Except.ok false) := by
  unfold resize_down_image_height
  rw [h]
  dsimp only
  rw [if_pos hlt]

/-- The downscaler on an image at or above the (positive-height) target, with a
saveable output extension: writes the resized image and returns `True`. -/
theorem resize_down_ok {st : St} {inFp outFp : Fp} {t : Nat} {img : Img}
    {fmt : String}
    (h : pilOpen st inFp = Except.ok img) (hge : ¬ img.height < t)
    (h0 : ¬ img.height = 0)
    (hext : pilExtFormat.lookup (lowerStr (nameSuffix outFp.name)) = some fmt) :
    resize_down_image_height st inFp outFp t =
      (writeImgFile st outFp (pilResize (pyNewWidth img.width t img.height) t),
        Except.ok true) := by
  unfold resize_down_image_height
  rw [h]
  dsimp only
  rw [if_neg hge, if_neg h0]
  unfold pilSave
  rw [hext]

/-- The downscaler saving to a path with an unknown extension raises
`ValueError` after the resize, writing nothing. -/
theorem resize_down_valueError {st : St} {inFp outFp : Fp} {t : Nat} {img : Img}
    (h : pilOpen st inFp = Except.ok img) (hge : ¬ img.height < t)
    (h0 : ¬ img.height = 0)
    (hext : pilExtFormat.lookup (lowerStr (nameSuffix outFp.name)) = none) :
    resize_down_image_height st inFp outFp t =
      (st, Except.error (PyErr.valueError outFp.name)) := by
  unfold resize_down_image_height
  rw [h]
  dsimp only
  rw [if_neg hge, if_neg h0]
  unfold pilSave
  rw [hext]

/-- The upscale phase is skipped when the probed height is not below the
minimum (strict `<`). -/
theorem phaseUpscale_of_ge {st : St} {fp : Fp} {mh : Nat} {size0 : Img}
    (hge : ¬ size0.height < mh) :
    phaseUpscale st fp mh size0 = (st, Except.ok ()) := by
  unfold phaseUpscale
  rw [if_neg hge]

/-- The upscale phase on a decodable file below the minimum: the doubled image
is written back (when `cv2.imwrite` has an encoder for the suffix) and success
is logged. -/
theorem phaseUpscale_of_lt {st : St} {fp : Fp} {mh : Nat} {img : Img}
    (h : lookupEntry st fp = some (Entry.file (some img)))
    (hlt : img.height < mh) :
    phaseUpscale st fp mh img =
      (logEv (cvImwrite st fp { width := 2 * img.width, height := 2 * img.height }).1
        (Event.infoUpscaled fp), Except.ok ()) := by
  unfold phaseUpscale
  rw [if_pos hlt, upscale_image_of_lookup h]
  dsimp only
  rw [if_pos rfl]

/-- The downscale phase is skipped when the re-probed height does not exceed
the minimum (strict `>`). -/
theorem phaseDownscale_of_le {st : St} {fp : Fp} {mh : Nat} {size1 : Img}
    (hle : ¬ mh < size1.height) :
    phaseDownscale st fp mh size1 = (st, Except.ok ()) := by
  unfold phaseDownscale
  rw [if_neg hle]

/-- The downscale phase on a decodable file above the minimum, with a saveable
suffix: the resized image (exact height `mh`, binary64-computed width) is
written back and success is logged. -/
theorem phaseDownscale_of_gt_ok {st : St} {fp : Fp} {mh : Nat} {img : Img}
    {fmt : String}
    (h : lookupEntry st fp = some (Entry.file (some img)))
    (hgt : mh < img.height)
    (hext : pilExtFormat.lookup (lowerStr (nameSuffix fp.name)) = some fmt) :
    phaseDownscale st fp mh img =
      (logEv (writeImgFile st fp (pilResize (pyNewWidth img.width mh img.height) mh))
        (Event.infoResized fp), Except.ok ()) := by
  unfold phaseDownscale
  rw [if_pos hgt,
    resize_down_ok (pilOpen_of_lookup h) (by omega) (by omega) hext]
  dsimp only
  rw [if_pos rfl]

/-- The downscale phase on a decodable file above the minimum whose suffix has
no PIL encoder: `ValueError` propagates out of the phase. -/
theorem phaseDownscale_of_gt_valueError {st : St} {fp : Fp} {mh : Nat} {img : Img}
    (h : lookupEntry st fp = some (Entry.file (some img)))
    (hgt : mh < img.height)
    (hext : pilExtFormat.lookup (lowerStr (nameSuffix fp.name)) = none) :
    phaseDownscale st fp mh img = (st, Except.error (PyErr.valueError fp.name)) := by
  unfold phaseDownscale
  rw [if_pos hgt,
    resize_down_valueError (pilOpen_of_lookup h) (by omega) (by omega) hext]

/-- The convert phase on a triggering suffix and decodable file: the
`KeyError: 'JPG'` raised by `Image.save` propagates; the state is untouched. -/
theorem phaseConvert_of_trigger {st : St} {fp : Fp} {img : Img}
    (ht : convertTrigger fp = true)
    (h : lookupEntry st fp = some (Entry.file (some img))) :
    phaseConvert st fp = (st, Except.error (PyErr.keyError "JPG")) := by
  unfold phaseConvert
  rw [if_pos ht, convert_keyError 90 (pilOpen_of_lookup h)]

/-- The convert phase is skipped when the suffix is not `.png`/`.jpeg`
(case-sensitive). -/
theorem phaseConvert_of_no {st : St} {fp : Fp}
    (ht : ¬ convertTrigger fp = true) :
    phaseConvert st fp = (st, Except.ok ()) := by
  unfold phaseConvert
  rw [if_neg ht]

/-- A file whose height equals the threshold exactly runs neither the upscale
branch (strict `<`) nor the downscale branch (strict `>`): the state the loop
body produces is the input state unchanged, and the only possible non-benign
outcome is the format-normalizer's `KeyError` for `.png`/`.jpeg` suffixes. -/
theorem processOne_at_threshold {st : St} {fp : Fp} {img : Img} {mh : Nat}
    (h : lookupEntry st fp = some (Entry.file (some img)))
    (hh : img.height = mh) :
    processOne st fp mh =
      (st, if convertTrigger fp then Except.error (PyErr.keyError "JPG")
           else Except.ok ()) := by
  have h1 : ¬ (img.height < mh) := by omega
  have h2 : ¬ (mh < img.height) := by omega
  unfold processOne
  rw [gis_of_img h]
  dsimp only
  rw [phaseUpscale_of_ge h1]
  dsimp only
  rw [gis_of_img h]
  dsimp only
  rw [phaseDownscale_of_le h2]
  dsimp only
  by_cases ht : convertTrigger fp
  · rw [phaseConvert_of_trigger ht h, if_pos ht]
  · rw [phaseConvert_of_no ht, if_neg ht]

theorem cvImwrite_dirPath (st : St) (fp : Fp) (img : Img) :
    ((cvImwrite st fp img).1).dirPath = st.dirPath := by
  unfold cvImwrite
  split
  · exact writeImgFile_dirPath st fp img
  · rfl

theorem cvImwrite_isDir (st : St) (fp : Fp) (img : Img) :
    ((cvImwrite st fp img).1).isDir = st.isDir := by
  unfold cvImwrite
  split
  · exact writeImgFile_isDir st fp img
  · rfl

theorem cvImwrite_lookup_self {st : St} {fp : Fp} (img : Img)
    (hdir : fp.dir = st.dirPath) (hisdir : st.isDir = true) :
    lookupEntry ((cvImwrite st fp img).1) fp = some (Entry.file (some img)) ∨
    lookupEntry ((cvImwrite st fp img).1) fp = lookupEntry st fp := by
  unfold cvImwrite
  split
  · exact Or.inl (lookupEntry_writeImgFile_self img hdir hisdir)
  · exact Or.inr rfl

/-- When the loop body completes a decodable file without raising, the file's
final height is the threshold, its original height, or double its original
height. -/
theorem processOne_final_height {st : St} {fp : Fp} {img : Img} {mh : Nat}
    {stf : St}
    (h : lookupEntry st fp = some (Entry.file (some img)))
    (hok : processOne st fp mh = (stf, Except.ok ())) :
    ∃ img2, lookupEntry stf fp = some (Entry.file (some img2)) ∧
      (img2.height = mh ∨ img2.height = img.height ∨
        img2.height = 2 * img.height) := by
  obtain ⟨hdir, hisdir⟩ := lookupEntry_some_dir h
  unfold processOne at hok
  rw [gis_of_img h] at hok
  dsimp only at hok
  by_cases hup : img.height < mh
  case pos =>
    rw [phaseUpscale_of_lt h hup] at hok
    dsimp only at hok
    set X := (cvImwrite st fp { width := 2 * img.width, height := 2 * img.height }).1 with hX
    have hdirX : fp.dir = X.dirPath := by rw [hX, cvImwrite_dirPath]; exact hdir
    have hisdirX : X.isDir = true := by rw [hX, cvImwrite_isDir]; exact hisdir
    have hlkX : ∃ im1, lookupEntry X fp = some (Entry.file (some im1)) ∧
        (im1.height = img.height ∨ im1.height = 2 * img.height) := by
      rcases @cvImwrite_lookup_self st fp
          { width := 2 * img.width, height := 2 * img.height } hdir hisdir with hc | hc
      · exact ⟨_, hc, Or.inr rfl⟩
      · exact ⟨img, by rw [hc]; exact h, Or.inl rfl⟩
    obtain ⟨im1, him1, hh1⟩ := hlkX
    have him1' : lookupEntry (logEv X (Event.infoUpscaled fp)) fp =
        some (Entry.file (some im1)) := him1
    rw [gis_of_img him1'] at hok
    dsimp only at hok
    by_cases hdn : mh < im1.height
    case pos =>
      cases hext : pilExtFormat.lookup (lowerStr (nameSuffix fp.name)) with
      | none =>
        rw [phaseDownscale_of_gt_valueError him1' hdn hext] at hok
        dsimp only at hok
        simp at hok
      | some fmt =>
        rw [phaseDownscale_of_gt_ok him1' hdn hext] at hok
        dsimp only at hok
        have hdir3 : fp.dir = (logEv X (Event.infoUpscaled fp)).dirPath := hdirX
        have hisdir3 : (logEv X (Event.infoUpscaled fp)).isDir = true := hisdirX
        have hlkR : lookupEntry
            (logEv (writeImgFile (logEv X (Event.infoUpscaled fp)) fp
              (pilResize (pyNewWidth im1.width mh im1.height) mh))
              (Event.infoResized fp)) fp =
            some (Entry.file (some (pilResize (pyNewWidth im1.width mh im1.height) mh))) := by
          rw [lookupEntry_logEv]
          exact lookupEntry_writeImgFile_self _ hdir3 hisdir3
        by_cases ht : convertTrigger fp
        case pos =>
          rw [phaseConvert_of_trigger ht hlkR] at hok
          simp at hok
        case neg =>
          rw [phaseConvert_of_no ht] at hok
          rw [Prod.ext_iff] at hok
          obtain ⟨h1, -⟩ := hok
          subst h1
          exact ⟨pilResize (pyNewWidth im1.width mh im1.height) mh, hlkR, Or.inl rfl⟩
    case neg =>
      rw [phaseDownscale_of_le hdn] at hok
      dsimp only at hok
      by_cases ht : convertTrigger fp
      case pos =>
        rw [phaseConvert_of_trigger ht him1'] at hok
        simp at hok
      case neg =>
        rw [phaseConvert_of_no ht] at hok
        rw [Prod.ext_iff] at hok
        obtain ⟨h1, -⟩ := hok
        subst h1
        refine ⟨im1, him1', ?_⟩
        rcases hh1 with h2 | h2
        · exact Or.inr (Or.inl h2)
        · exact Or.inr (Or.inr h2)
  case neg =>
    rw [phaseUpscale_of_ge hup] at hok
    dsimp only at hok
    rw [gis_of_img h] at hok
    dsimp only at hok
    by_cases hdn : mh < img.height
    case pos =>
      cases hext : pilExtFormat.lookup (lowerStr (nameSuffix fp.name)) with
      | none =>
        rw [phaseDownscale_of_gt_valueError h hdn hext] at hok
        dsimp only at hok
        simp at hok
      | some fmt =>
        rw [phaseDownscale_of_gt_ok h hdn hext] at hok
        dsimp only at hok
        have hlkR : lookupEntry
            (logEv (writeImgFile st fp
              (pilResize (pyNewWidth img.width mh img.height) mh))
              (Event.infoResized fp)) fp =
            some (Entry.file (some (pilResize (pyNewWidth img.width mh img.height) mh))) := by
          rw [lookupEntry_logEv]
          exact lookupEntry_writeImgFile_self _ hdir hisdir
        by_cases ht : convertTrigger fp
        case pos =>
          rw [phaseConvert_of_trigger ht hlkR] at hok
          simp at hok
        case neg =>
          rw [phaseConvert_of_no ht] at hok
          rw [Prod.ext_iff] at hok
          obtain ⟨h1, -⟩ := hok
          subst h1
          exact ⟨pilResize (pyNewWidth img.width mh img.height) mh, hlkR, Or.inl rfl⟩
    case neg =>
      rw [phaseDownscale_of_le hdn] at hok
      dsimp only at hok
      by_cases ht : convertTrigger fp
      case pos =>
        rw [phaseConvert_of_trigger ht h] at hok
        simp at hok
      case neg =>
        rw [phaseConvert_of_no ht] at hok
        rw [Prod.ext_iff] at hok
        obtain ⟨h1, -⟩ := hok
        subst h1
        exact ⟨img, h, Or.inr (Or.inl rfl)⟩

/-- `upscale_image` can raise, but whenever it returns it returns `True`: the
`return True` at line 54 of `main.py` is unconditional. -/
theorem upscale_ok_true {st : St} {a b : Fp} {st2 : St} {r : Bool}
    (h : upscale_image st a b = (st2, Except.ok r)) : r = true := by
  unfold upscale_image at h
  dsimp only at h
  split at h
  · simp at h
  · rw [Prod.ext_iff] at h
    obtain ⟨-, h2⟩ := h
    cases h2
    rfl

theorem cvImwrite_log (st : St) (fp : Fp) (img : Img) :
    ((cvImwrite st fp img).1).log = st.log := by
  unfold cvImwrite
  split
  · exact writeImgFile_log st fp img
  · rfl

theorem pilSave_log (st : St) (img : Img) (fp : Fp) (fmt : Option String) :
    ((pilSave st img fp fmt).1).log = st.log := by
  unfold pilSave
  cases fmt with
  | some f =>
    dsimp only
    split
    · exact writeImgFile_log st fp img
    · rfl
  | none =>
    dsimp only
    split
    · exact writeImgFile_log st fp img
    · rfl

theorem gis_result_log {st st1 : St} {fp : Fp} {r : Except PyErr (Option Img)}
    (h : get_image_size_from_fp st fp = (st1, r)) :
    st1.log = st.log ∨ st1.log = st.log ++ [Event.errNotFile fp] := by
  unfold get_image_size_from_fp at h
  split at h
  · split at h <;>
      (rw [Prod.ext_iff] at h; obtain ⟨h1, -⟩ := h; subst h1; exact Or.inl rfl)
  · rw [Prod.ext_iff] at h
    obtain ⟨h1, -⟩ := h
    subst h1
    exact Or.inr rfl

theorem upscale_result_log {st st2 : St} {a b : Fp} {r : Except PyErr Bool}
    (h : upscale_image st a b = (st2, r)) : st2.log = st.log := by
  unfold upscale_image at h
  dsimp only at h
  split at h <;>
    (rw [Prod.ext_iff] at h; obtain ⟨h1, -⟩ := h; subst h1)
  · rfl
  · exact cvImwrite_log st b _

theorem resize_result_log {st st2 : St} {a b : Fp} {t : Nat} {r : Except PyErr Bool}
    (h : resize_down_image_height st a b t = (st2, r)) :
    st2.log = st.log ∨ ∃ c w2, st2.log = st.log ++ [Event.warnTooSmall c w2] := by
  unfold resize_down_image_height at h
  split at h
  · rw [Prod.ext_iff] at h; obtain ⟨h1, -⟩ := h; subst h1; exact Or.inl rfl
  · split at h
    · rw [Prod.ext_iff] at h; obtain ⟨h1, -⟩ := h; subst h1
      exact Or.inr ⟨_, _, rfl⟩
    · split at h
      · rw [Prod.ext_iff] at h; obtain ⟨h1, -⟩ := h; subst h1; exact Or.inl rfl
      · dsimp only at h
        split at h <;>
          (rw [Prod.ext_iff] at h; obtain ⟨h1, -⟩ := h; subst h1;
           exact Or.inl (pilSave_log ..))

theorem convert_result_log {st st2 : St} {a b : Fp} {q : Nat} {r : Except PyErr Bool}
    (h : convert_img_to_jpg st a b q = (st2, r)) : st2.log = st.log := by
  unfold convert_img_to_jpg at h
  split at h
  · rw [Prod.ext_iff] at h; obtain ⟨h1, -⟩ := h; subst h1; rfl
  · dsimp only at h
    split at h <;>
      (rw [Prod.ext_iff] at h; obtain ⟨h1, -⟩ := h; subst h1; exact pilSave_log ..)

/-- The upscale phase never logs `warnFailedUpscale`: doing so would require
`upscale_image` to return `False`. -/
theorem phaseUpscale_no_upwarn {st st2 : St} {fp : Fp} {mh : Nat} {size0 : Img}
    {r : Except PyErr Unit} {w : Fp}
    (h : phaseUpscale st fp mh size0 = (st2, r))
    (hw : Event.warnFailedUpscale w ∉ st.log) :
    Event.warnFailedUpscale w ∉ st2.log := by
  unfold phaseUpscale at h
  split at h
  · split at h
    · rename_i sa e heq
      rw [Prod.ext_iff] at h
      obtain ⟨h1, -⟩ := h; subst h1
      rw [upscale_result_log heq]
      exact hw
    · rename_i sa b2 heq
      have hb : b2 = true := upscale_ok_true heq
      subst hb
      rw [if_pos rfl] at h
      rw [Prod.ext_iff] at h
      obtain ⟨h1, -⟩ := h; subst h1
      rw [logEv_log, upscale_result_log heq]
      simp [hw]
  · rw [Prod.ext_iff] at h
    obtain ⟨h1, -⟩ := h; subst h1
    exact hw

/-- The downscale phase appends only resize-related events. -/
theorem phaseDownscale_no_upwarn {st st2 : St} {fp : Fp} {mh : Nat} {size1 : Img}
    {r : Except PyErr Unit} {w : Fp}
    (h : phaseDownscale st fp mh size1 = (st2, r))
    (hw : Event.warnFailedUpscale w ∉ st.log) :
    Event.warnFailedUpscale w ∉ st2.log := by
  unfold phaseDownscale at h
  split at h
  · split at h
    · rename_i sa e heq
      rw [Prod.ext_iff] at h
      obtain ⟨h1, -⟩ := h; subst h1
      rcases resize_result_log heq with hl | ⟨c, w2, hl⟩ <;> simp [hl, hw]
    · rename_i sa b2 heq
      split at h <;>
        (rw [Prod.ext_iff] at h; obtain ⟨h1, -⟩ := h; subst h1;
         rw [logEv_log];
         rcases resize_result_log heq with hl | ⟨c, w2, hl⟩ <;> simp [hl, hw])
  · rw [Prod.ext_iff] at h
    obtain ⟨h1, -⟩ := h; subst h1
    exact hw

/-- The convert phase appends only convert-related events. -/
theorem phaseConvert_no_upwarn {st st2 : St} {fp : Fp}
    {r : Except PyErr Unit} {w : Fp}
    (h : phaseConvert st fp = (st2, r))
    (hw : Event.warnFailedUpscale w ∉ st.log) :
    Event.warnFailedUpscale w ∉ st2.log := by
  unfold phaseConvert at h
  split at h
  · split at h
    · rename_i sa e heq
      rw [Prod.ext_iff] at h
      obtain ⟨h1, -⟩ := h; subst h1
      rw [convert_result_log heq]
      exact hw
    · rename_i sa b2 heq
      split at h <;>
        (rw [Prod.ext_iff] at h; obtain ⟨h1, -⟩ := h; subst h1;
         rw [logEv_log, convert_result_log heq];
         simp [hw])
  · rw [Prod.ext_iff] at h
    obtain ⟨h1, -⟩ := h; subst h1
    exact hw

/-- The loop body never logs the "Failed to upscale image" warning. -/
theorem processOne_no_upwarn {st stf : St} {fp : Fp} {mh : Nat} {w : Fp}
    {r : Except PyErr Unit}
    (hres : processOne st fp mh = (stf, r))
    (hw : Event.warnFailedUpscale w ∉ st.log) :
    Event.warnFailedUpscale w ∉ stf.log := by
  have hgis : ∀ {sa sb : St} {rg : Except PyErr (Option Img)},
      get_image_size_from_fp sa fp = (sb, rg) →
      Event.warnFailedUpscale w ∉ sa.log → Event.warnFailedUpscale w ∉ sb.log := by
    intro sa sb rg hg hwa
    rcases gis_result_log hg with hl | hl <;> simp [hl, hwa]
  unfold processOne at hres
  split at hres
  · rename_i st1 e heq
    rw [Prod.ext_iff] at hres
    obtain ⟨h1, -⟩ := hres; subst h1
    exact hgis heq hw
  · rename_i st1 heq
    rw [Prod.ext_iff] at hres
    obtain ⟨h1, -⟩ := hres; subst h1
    exact hgis heq hw
  · rename_i st1 size0 heq
    have hw1 : Event.warnFailedUpscale w ∉ st1.log := hgis heq hw
    split at hres
    · rename_i st2 e heq2
      rw [Prod.ext_iff] at hres
      obtain ⟨h1, -⟩ := hres; subst h1
      exact phaseUpscale_no_upwarn heq2 hw1
    · rename_i st2 u heq2
      have hw2 : Event.warnFailedUpscale w ∉ st2.log :=
        phaseUpscale_no_upwarn heq2 hw1
      split at hres
      · rename_i st3 e heq3
        rw [Prod.ext_iff] at hres
        obtain ⟨h1, -⟩ := hres; subst h1
        exact hgis heq3 hw2
      · rename_i st3 heq3
        rw [Prod.ext_iff] at hres
        obtain ⟨h1, -⟩ := hres; subst h1
        exact hgis heq3 hw2
      · rename_i st3 size1 heq3
        have hw3 : Event.warnFailedUpscale w ∉ st3.log := hgis heq3 hw2
        split at hres
        · rename_i st4 e heq4
          rw [Prod.ext_iff] at hres
          obtain ⟨h1, -⟩ := hres; subst h1
          exact phaseDownscale_no_upwarn heq4 hw3
        · rename_i st4 u heq4
          have hw4 : Event.warnFailedUpscale w ∉ st4.log :=
            phaseDownscale_no_upwarn heq4 hw3
          exact phaseConvert_no_upwarn hres hw4

/-- The scanner does not change the state when the directory is valid. -/
theorem list_image_fps_fst {st : St} {d : String} (exts : List String)
    (hdir : d = st.dirPath) (hisdir : st.isDir = true) :
    (list_image_fps st d exts).1 = st := by
  unfold list_image_fps
  rw [if_pos ⟨hdir, hisdir⟩]

/-- The whole batch never logs the "Failed to upscale image" warning. -/
theorem processAll_no_upwarn {fps : List Fp} {st stf : St} {mh : Nat} {w : Fp}
    {r : Except PyErr Unit}
    (hres : processAll st fps mh = (stf, r))
    (hw : Event.warnFailedUpscale w ∉ st.log) :
    Event.warnFailedUpscale w ∉ stf.log := by
  induction fps generalizing st with
  | nil =>
    unfold processAll at hres
    rw [Prod.ext_iff] at hres
    obtain ⟨h1, -⟩ := hres; subst h1
    exact hw
  | cons fp rest ih =>
    unfold processAll at hres
    split at hres
    · rename_i st1 e heq
      rw [Prod.ext_iff] at hres
      obtain ⟨h1, -⟩ := hres; subst h1
      exact processOne_no_upwarn heq hw
    · rename_i st1 heq
      exact ih hres (processOne_no_upwarn heq hw)

theorem pathIsFile_of_lookup_dir {st : St} {fp : Fp}
    (h : lookupEntry st fp = some Entry.dir) : pathIsFile st fp = false := by
  unfold pathIsFile
  rw [h]

theorem pathIsFile_of_lookup_none {st : St} {fp : Fp}
    (h : lookupEntry st fp = none) : pathIsFile st fp = false := by
  unfold pathIsFile
  rw [h]

/-- Probing an undecodable regular file raises out of the probe (`Image.open`
is reached because `is_file()` holds, and it raises). -/
theorem gis_of_undecodable {st : St} {fp : Fp}
    (h : lookupEntry st fp = some (Entry.file none)) :
    get_image_size_from_fp st fp = (st, Except.error (PyErr.openError fp)) := by
  unfold get_image_size_from_fp pathIsFile pilOpen
  rw [h]
  simp

/-- The loop body on a path that is no regular file: the probe's error is
logged, the file is skipped, and the loop continues benignly. -/
theorem processOne_not_file {st : St} {fp : Fp} (mh : Nat)
    (h : pathIsFile st fp = false) :
    processOne st fp mh = (logEv st (Event.errNotFile fp), Except.ok ()) := by
  unfold processOne
  rw [gis_of_not_file h]

/-- The loop body on an undecodable regular file: the probe's exception
propagates out of the loop body with the state unchanged. -/
theorem processOne_undecodable {st : St} {fp : Fp} (mh : Nat)
    (h : lookupEntry st fp = some (Entry.file none)) :
    processOne st fp mh = (st, Except.error (PyErr.openError fp)) := by
  unfold processOne
  rw [gis_of_undecodable h]

/-- A benign probe failure on the first file of the batch only logs an error:
the remaining files are processed exactly as they would have been. -/
theorem processAll_cons_not_file {st : St} {fp : Fp} (rest : List Fp) (mh : Nat)
    (h : pathIsFile st fp = false) :
    processAll st (fp :: rest) mh =
      processAll (logEv st (Event.errNotFile fp)) rest mh := by
  conv_lhs => rw [processAll.eq_def]
  dsimp only
  rw [processOne_not_file mh h]

/-- When the per-file loop completes without an exception on a valid
directory, `process_supermarket_images` returns `True`. -/
theorem process_ok_of_processAll {st stf : St} {imgDir : String} {mh : Nat}
    (hdir : imgDir = st.dirPath) (hisdir : st.isDir = true)
    (h : processAll st (list_image_fps st imgDir [".png", ".jpg"]).2 mh =
      (stf, Except.ok ())) :
    process_supermarket_images st imgDir mh = (stf, Except.ok true) := by
  unfold process_supermarket_images
  rw [if_pos ⟨hdir, hisdir⟩]
  dsimp only
  rw [list_image_fps_fst _ hdir hisdir, h]

/-- Lookups only depend on the directory identity and the listing. -/
theorem lookupEntry_congr {st st2 : St} (fp : Fp)
    (h1 : st2.dirPath = st.dirPath) (h2 : st2.isDir = st.isDir)
    (h3 : st2.entries = st.entries) :
    lookupEntry st2 fp = lookupEntry st fp := by
  unfold lookupEntry
  rw [h1, h2, h3]

/-- A file the loop body leaves alone: a path that is no regular file (probe
failure, skipped), or a decodable image exactly at the threshold whose suffix
does not trigger format normalization. -/
def benignIdle (st : St) (fp : Fp) (mh : Nat) : Prop :=
  pathIsFile st fp = false ∨
    ∃ img, lookupEntry st fp = some (Entry.file (some img)) ∧
      img.height = mh ∧ convertTrigger fp = false

/-- The loop body completes benignly on a `benignIdle` file and changes
nothing besides the log. -/
theorem processOne_idle {st : St} {fp : Fp} {mh : Nat}
    (h : benignIdle st fp mh) :
    ∃ stf, processOne st fp mh = (stf, Except.ok ()) ∧
      stf.entries = st.entries ∧ stf.writes = st.writes ∧
      stf.dirPath = st.dirPath ∧ stf.isDir = st.isDir := by
  rcases h with hnf | ⟨img, hlk, hh, ht⟩
  · exact ⟨_, processOne_not_file mh hnf, rfl, rfl, rfl, rfl⟩
  · refine ⟨st, ?_, rfl, rfl, rfl, rfl⟩
    rw [processOne_at_threshold hlk hh]
    simp [ht]

/-- A batch of `benignIdle` files completes with `ok` and performs no write
and no change to the listing. -/
theorem processAll_idle {mh : Nat} :
    ∀ (fps : List Fp) (st : St), (∀ fp ∈ fps, benignIdle st fp mh) →
    ∃ stf, processAll st fps mh = (stf, Except.ok ()) ∧
      stf.entries = st.entries ∧ stf.writes = st.writes ∧
      stf.dirPath = st.dirPath ∧ stf.isDir = st.isDir := by
  intro fps
  induction fps with
  | nil =>
    intro st _
    exact ⟨st, rfl, rfl, rfl, rfl, rfl⟩
  | cons fp rest ih =>
    intro st h
    obtain ⟨st1, hp1, he1, hw1, hd1, hi1⟩ := processOne_idle (h fp (by simp))
    have hrest : ∀ g ∈ rest, benignIdle st1 g mh := by
      intro g hg
      have hb := h g (by simp [hg])
      rcases hb with hnf | ⟨img, hlk, hh, ht⟩
      · refine Or.inl ?_
        unfold pathIsFile at hnf ⊢
        rw [lookupEntry_congr g hd1 hi1 he1]
        exact hnf
      · exact Or.inr ⟨img, by rw [lookupEntry_congr g hd1 hi1 he1]; exact hlk,
          hh, ht⟩
    obtain ⟨stf, hp2, he2, hw2, hd2, hi2⟩ := ih st1 hrest
    refine ⟨stf, ?_, by rw [he2, he1], by rw [hw2, hw1], by rw [hd2, hd1],
      by rw [hi2, hi1]⟩
    unfold processAll
    rw [hp1]
    exact hp2

theorem findEntry_mem {l : List (String × Entry)} {n : String} {e : Entry}
    (h : findEntry l n = some e) : (n, e) ∈ l := by
  induction l with
  | nil => simp [findEntry] at h
  | cons hd tl ih =>
    obtain ⟨m, e0⟩ := hd
    unfold findEntry at h
    by_cases hm : m = n
    · rw [if_pos hm] at h
      obtain rfl : e0 = e := by injection h
      subst hm
      simp
    · rw [if_neg hm] at h
      simp [ih h]

/-- Membership in the scanner's result, for a valid directory: exactly the
listed names (of any entry kind) whose lowercased suffix is accepted, with the
directory path prepended. -/
theorem list_image_fps_mem {st : St} {d : String} {exts : List String} {fp : Fp}
    (hdir : d = st.dirPath) (hisdir : st.isDir = true) :
    fp ∈ (list_image_fps st d exts).2 ↔
      fp.dir = d ∧ ∃ e, (fp.name, e) ∈ st.entries ∧
        lowerStr (nameSuffix fp.name) ∈ exts := by
  unfold list_image_fps
  rw [if_pos ⟨hdir, hisdir⟩]
  dsimp only
  rw [List.mem_filterMap]
  constructor
  · rintro ⟨⟨n, e⟩, hmem, hf⟩
    dsimp only at hf
    by_cases hc : lowerStr (nameSuffix n) ∈ exts
    · rw [if_pos hc] at hf
      have : ({ dir := d, name := n } : Fp) = fp := by injection hf
      subst this
      exact ⟨rfl, e, hmem, hc⟩
    · rw [if_neg hc] at hf
      exact absurd hf (by simp)
  · rintro ⟨hd, e, hmem, hc⟩
    refine ⟨(fp.name, e), hmem, ?_⟩
    dsimp only
    rw [if_pos hc, ← hd]

/-- No run of the orchestrator, valid directory or not, completed or aborted,
ever adds the "Failed to upscale image" warning to the log. -/
theorem process_no_upwarn {st stf : St} {d : String} {mh : Nat} {w : Fp}
    {r : Except PyErr Bool}
    (h : process_supermarket_images st d mh = (stf, r))
    (hw : Event.warnFailedUpscale w ∉ st.log) :
    Event.warnFailedUpscale w ∉ stf.log := by
  unfold process_supermarket_images at h
  split at h
  · rename_i hc
    dsimp only at h
    rw [list_image_fps_fst [".png", ".jpg"] hc.1 hc.2] at h
    split at h <;>
      (rename_i st2 heqA;
       rw [Prod.ext_iff] at h;
       obtain ⟨h1, -⟩ := h; subst h1;
       exact processAll_no_upwarn heqA hw)
  · rw [Prod.ext_iff] at h
    obtain ⟨h1, -⟩ := h; subst h1
    simp [hw]

/-! ## Concrete directory states used by the claim theorems below -/

/-- One `.jpg` file of 100x100 pixels: needs upscaling; doubling still leaves
it below the default threshold of 400. -/
def stSmall : St :=
  { dirPath := "imgs", isDir := true,
    entries := [("a.jpg", Entry.file (some { width := 100, height := 100 }))],
    log := [], writes := [] }

/-- An undecodable `.png` file followed by a decodable `.jpg` file that needs
downscaling. -/
def stBatch : St :=
  { dirPath := "imgs", isDir := true,
    entries := [("broken.png", Entry.file none),
                ("b.jpg", Entry.file (some { width := 500, height := 500 }))],
    log := [], writes := [] }

/-- A subdirectory whose name ends in `.png`, and an uppercase-suffixed image
file. -/
def stScan : St :=
  { dirPath := "imgs", isDir := true,
    entries := [("sub.png", Entry.dir),
                ("a.PNG", Entry.file (some { width := 500, height := 500 }))],
    log := [], writes := [] }

/-- A subdirectory named like an image next to a regular image file needing a
downscale. -/
def stMix : St :=
  { dirPath := "imgs", isDir := true,
    entries := [("sub.png", Entry.dir),
                ("c.jpg", Entry.file (some { width := 500, height := 500 }))],
    log := [], writes := [] }

/-- One 145x464 `.jpg` image: the binary64 width computation for threshold 400
truncates to 124 although the exact value 145*400/464 = 125 is an integer. -/
def stC4 : St :=
  { dirPath := "imgs", isDir := true,
    entries := [("big.jpg", Entry.file (some { width := 145, height := 464 }))],
    log := [], writes := [] }

/-- One `.png` file already exactly at the threshold: only the
format-normalization step would act on it. -/
def stPng : St :=
  { dirPath := "imgs", isDir := true,
    entries := [("a.png", Entry.file (some { width := 200, height := 400 }))],
    log := [], writes := [] }

/-- One `.jpg` file already exactly at the threshold. -/
def stIdle : St :=
  { dirPath := "imgs", isDir := true,
    entries := [("a.jpg", Entry.file (some { width := 300, height := 400 }))],
    log := [], writes := [] }

/-- A path whose directory does not exist. -/
def stNoDir : St :=
  { dirPath := "imgs", isDir := false, entries := [], log := [], writes := [] }

/-! ## Claim theorems -/

/-- C1 (counterexample): the orchestrator does not catch every per-file
failure.  On a directory holding an undecodable `broken.png` followed by a
500x500 `b.jpg` that needs downscaling, the probe's exception propagates out of
`process_supermarket_images`, nothing is ever written, and `b.jpg` is left
untouched: the first file's failure aborted the remaining batch. -/
theorem batch_aborts_on_first_file_exception :
    (process_supermarket_images stBatch "imgs" 400).2 =
      Except.error (PyErr.openError { dir := "imgs", name := "broken.png" }) ∧
    (process_supermarket_images stBatch "imgs" 400).1.writes = [] ∧
    lookupEntry (process_supermarket_images stBatch "imgs" 400).1
      { dir := "imgs", name := "b.jpg" } =
      some (Entry.file (some { width := 500, height := 500 })) := by
  decide

/-- C1 (amended): the failures the orchestrator signals by return value are
caught, logged and skipped — a probe that reports no size only logs an error
and the batch continues with the next file unchanged — and a batch that raises
no library exception completes with result `True` on a valid directory.
(Library exceptions, by contrast, propagate: see the counterexample.) -/
theorem orchestrator_handles_signalled_failures :
    (∀ (st : St) (fp : Fp) (rest : List Fp) (mh : Nat),
      pathIsFile st fp = false →
      processAll st (fp :: rest) mh =
        processAll (logEv st (Event.errNotFile fp)) rest mh) ∧
    (∀ (st : St) (imgDir : String) (mh : Nat) (stf : St),
      imgDir = st.dirPath → st.isDir = true →
      processAll st (list_image_fps st imgDir [".png", ".jpg"]).2 mh =
        (stf, Except.ok ()) →
      process_supermarket_images st imgDir mh = (stf, Except.ok true)) :=
  ⟨fun _ _ rest mh h => processAll_cons_not_file rest mh h,
   fun _ _ _ _ h1 h2 h3 => process_ok_of_processAll h1 h2 h3⟩

/-- C1 (witness): on a directory with a subdirectory `sub.png` (probe failure,
skipped) and a 500x500 `c.jpg`, the skip equation holds and the batch completes
with `True`. -/
theorem orchestrator_handles_signalled_failures_witness :
    processAll stMix [{ dir := "imgs", name := "sub.png" },
        { dir := "imgs", name := "c.jpg" }] 400 =
      processAll (logEv stMix (Event.errNotFile { dir := "imgs", name := "sub.png" }))
        [{ dir := "imgs", name := "c.jpg" }] 400 ∧
    process_supermarket_images stMix "imgs" 400 =
      ((process_supermarket_images stMix "imgs" 400).1, Except.ok true) :=
  ⟨orchestrator_handles_signalled_failures.1 stMix
      { dir := "imgs", name := "sub.png" } [{ dir := "imgs", name := "c.jpg" }] 400
      (by decide),
   orchestrator_handles_signalled_failures.2 stMix "imgs" 400
      (process_supermarket_images stMix "imgs" 400).1 (by decide) (by decide)
      (by decide)⟩

/-- C2 (counterexample): a 100x100 `.jpg` under threshold 400 is upscaled to
200x200 and then left: the run completes, yet the final height 200 is neither
the threshold 400, nor the pre-upscale height 100, nor did the file satisfy
the threshold on entry. -/
theorem final_height_disjunction_fails_on_small_file :
    (process_supermarket_images stSmall "imgs" 400).2 = Except.ok true ∧
    lookupEntry (process_supermarket_images stSmall "imgs" 400).1
      { dir := "imgs", name := "a.jpg" } =
      some (Entry.file (some { width := 200, height := 200 })) ∧
    ¬ ((200 : Nat) = 400 ∨ (200 : Nat) = 100 ∨ (100 : Nat) ≥ 400) := by
  decide

/-- C2 (amended): when the loop body completes a decodable file without
raising, the file still decodes and its final height is the threshold (a
downscale succeeded), or its pre-upscale height (no phase changed it), or
exactly double its pre-upscale height (the 2x upscale ran but the result did
not exceed the threshold). -/
theorem final_height_threshold_or_unchanged_or_doubled
    {st : St} {fp : Fp} {img : Img} {mh : Nat} {stf : St}
    (h : lookupEntry st fp = some (Entry.file (some img)))
    (hok : processOne st fp mh = (stf, Except.ok ())) :
    ∃ img2, lookupEntry stf fp = some (Entry.file (some img2)) ∧
      (img2.height = mh ∨ img2.height = img.height ∨
        img2.height = 2 * img.height) :=
  processOne_final_height h hok

/-- C2 (witness): the amended disjunction at the concrete 100x100 `.jpg`
file. -/
theorem final_height_threshold_or_unchanged_or_doubled_witness :
    ∃ img2, lookupEntry (processOne stSmall { dir := "imgs", name := "a.jpg" } 400).1
        { dir := "imgs", name := "a.jpg" } = some (Entry.file (some img2)) ∧
      (img2.height = 400 ∨ img2.height = { width := 100, height := 100 : Img }.height ∨
        img2.height = 2 * { width := 100, height := 100 : Img }.height) :=
  @final_height_threshold_or_unchanged_or_doubled stSmall
    { dir := "imgs", name := "a.jpg" } { width := 100, height := 100 } 400
    (processOne stSmall { dir := "imgs", name := "a.jpg" } 400).1
    (by decide) (by decide)

/-- C3 (counterexample): running the pipeline twice on the 100x100 `.jpg`
directory is not a no-op: the first run completes (the file ends at 200x200,
still under threshold), and the second run writes again (it upscales the file
to 400x400), so the second run neither performs no writes nor leaves the
file's bytes unchanged. -/
theorem second_run_rewrites_small_file :
    (process_supermarket_images stSmall "imgs" 400).2 = Except.ok true ∧
    (process_supermarket_images
        (process_supermarket_images stSmall "imgs" 400).1 "imgs" 400).1.writes ≠
      (process_supermarket_images stSmall "imgs" 400).1.writes ∧
    lookupEntry (process_supermarket_images
        (process_supermarket_images stSmall "imgs" 400).1 "imgs" 400).1
        { dir := "imgs", name := "a.jpg" } ≠
      lookupEntry (process_supermarket_images stSmall "imgs" 400).1
        { dir := "imgs", name := "a.jpg" } := by
  decide

/-- C3 (amended): the pipeline performs no write — and leaves the listing
untouched — on a directory in which every discovered image already has height
exactly the threshold and no discovered name has a normalization-triggering
suffix (`.jpg` files qualify).  A single prior run does not in general
establish that state (see the counterexample: a 100x100 file ends the first
run at 200x200), which is why run-twice is not a no-op. -/
theorem no_writes_on_already_converged_directory :
    ∀ (st : St) (imgDir : String) (mh : Nat),
      imgDir = st.dirPath → st.isDir = true →
      (∀ n e, (n, e) ∈ st.entries → lowerStr (nameSuffix n) ∈ [".png", ".jpg"] →
        (∀ img, e = Entry.file (some img) → img.height = mh) ∧
        e ≠ Entry.file none ∧
        convertTrigger { dir := imgDir, name := n } = false) →
      ∃ stf, process_supermarket_images st imgDir mh = (stf, Except.ok true) ∧
        stf.writes = st.writes ∧ stf.entries = st.entries := by
  intro st d mh hdir hisdir hcond
  have hidle : ∀ fp ∈ (list_image_fps st d [".png", ".jpg"]).2,
      benignIdle st fp mh := by
    intro fp hfp
    rw [list_image_fps_mem hdir hisdir] at hfp
    obtain ⟨hfd, e, hmem, hsuf⟩ := hfp
    cases hlk : lookupEntry st fp with
    | none => exact Or.inl (pathIsFile_of_lookup_none hlk)
    | some e1 =>
      have hmem1 : (fp.name, e1) ∈ st.entries := by
        have hx := hlk
        unfold lookupEntry at hx
        rw [if_pos ⟨by rw [hfd, hdir], hisdir⟩] at hx
        exact findEntry_mem hx
      have hH := hcond fp.name e1 hmem1 hsuf
      cases e1 with
      | dir => exact Or.inl (pathIsFile_of_lookup_dir hlk)
      | file o =>
        cases o with
        | none => exact absurd rfl hH.2.1
        | some img =>
          refine Or.inr ⟨img, hlk, hH.1 img rfl, ?_⟩
          have hfp_eq : fp = { dir := d, name := fp.name } := by
            cases fp
            simp_all
          rw [hfp_eq]
          exact hH.2.2
  obtain ⟨stf, hall, he, hw, -, -⟩ := processAll_idle _ st hidle
  exact ⟨stf, process_ok_of_processAll hdir hisdir hall, hw, he⟩

/-- C3 (witness): the amended no-write statement at a directory holding a
single 300x400 `.jpg`. -/
theorem no_writes_on_already_converged_directory_witness :
    ∃ stf, process_supermarket_images stIdle "imgs" 400 = (stf, Except.ok true) ∧
      stf.writes = stIdle.writes ∧ stf.entries = stIdle.entries :=
  no_writes_on_already_converged_directory stIdle "imgs" 400 rfl rfl
    (by
      intro n e hmem hsuf
      simp only [stIdle, List.mem_singleton] at hmem
      obtain ⟨rfl, rfl⟩ := Prod.mk.injEq .. ▸ hmem
      refine ⟨?_, by decide, by decide⟩
      intro img himg
      cases himg
      rfl)

set_option maxHeartbeats 2000000 in
/-- C4 (counterexample): the downscaled width is not `floor(W0 * H / H0)`.
For a 145x464 image at threshold 400 the code computes
`int(145 * (400 / 464))` in binary64, which is 124, while
`floor(145 * 400 / 464) = 125`: the run completes and the file ends 124x400. -/
theorem downscale_width_differs_from_exact_floor :
    (process_supermarket_images stC4 "imgs" 400).2 = Except.ok true ∧
    lookupEntry (process_supermarket_images stC4 "imgs" 400).1
      { dir := "imgs", name := "big.jpg" } =
      some (Entry.file (some { width := 124, height := 400 })) ∧
    145 * 400 / 464 = 125 ∧ (124 : Nat) ≠ 125 := by
  decide

/-- C4 (amended): for an image strictly taller than the target, the downscaler
writes a file whose height is exactly the target and whose width is
`int(W0 * (H / H0))` evaluated in IEEE binary64 arithmetic (`pyNewWidth`),
which can fall one below `floor(W0 * H / H0)` (see the counterexample). -/
theorem downscale_height_exact_width_binary64
    {st : St} {inFp outFp : Fp} {targetH : Nat} {img : Img} {fmt : String}
    (h : pilOpen st inFp = Except.ok img)
    (hgt : targetH < img.height)
    (hext : pilExtFormat.lookup (lowerStr (nameSuffix outFp.name)) = some fmt) :
    resize_down_image_height st inFp outFp targetH =
      (writeImgFile st outFp
        (pilResize (pyNewWidth img.width targetH img.height) targetH),
       Except.ok true) ∧
    (pilResize (pyNewWidth img.width targetH img.height) targetH).height =
      targetH :=
  ⟨resize_down_ok h (by omega) (by omega) hext, rfl⟩

/-- C4 (witness): the spec's own scenario, 800x1600 to threshold 400: height
exactly 400 and width `int(800 * 0.25) = 200`. -/
theorem downscale_height_exact_width_binary64_witness :
    (resize_down_image_height stMix { dir := "imgs", name := "c.jpg" }
        { dir := "imgs", name := "c.jpg" } 400 =
      (writeImgFile stMix { dir := "imgs", name := "c.jpg" }
        (pilResize (pyNewWidth { width := 500, height := 500 : Img }.width 400
          { width := 500, height := 500 : Img }.height) 400), Except.ok true) ∧
    (pilResize (pyNewWidth { width := 500, height := 500 : Img }.width 400
      { width := 500, height := 500 : Img }.height) 400).height = 400) ∧
    pyNewWidth 500 400 500 = 400 :=
  ⟨@downscale_height_exact_width_binary64 stMix { dir := "imgs", name := "c.jpg" }
      { dir := "imgs", name := "c.jpg" } 400 { width := 500, height := 500 } "JPEG"
      (by decide) (by decide) (by decide),
   by decide⟩

/-- C5: a file whose height equals the threshold exactly takes neither the
upscale branch (strict `<`) nor the downscale branch (strict `>`): the state
the loop body leaves behind is the input state itself — in particular the
file's dimensions, the listing, the write list and even the log are unchanged
(only the format-normalization step may still act on the original path, and on
this code it raises before writing). -/
theorem at_threshold_file_untouched
    {st : St} {fp : Fp} {img : Img} {mh : Nat}
    (h : lookupEntry st fp = some (Entry.file (some img)))
    (hh : img.height = mh) :
    (processOne st fp mh).1 = st ∧
    lookupEntry (processOne st fp mh).1 fp = some (Entry.file (some img)) ∧
    (processOne st fp mh).1.writes = st.writes := by
  have heq := processOne_at_threshold h hh
  rw [heq]
  exact ⟨rfl, h, rfl⟩

/-- C5 (witness): a 300x400 `.jpg` at threshold 400 is untouched. -/
theorem at_threshold_file_untouched_witness :
    (processOne stIdle { dir := "imgs", name := "a.jpg" } 400).1 = stIdle ∧
    lookupEntry (processOne stIdle { dir := "imgs", name := "a.jpg" } 400).1
      { dir := "imgs", name := "a.jpg" } =
      some (Entry.file (some { width := 300, height := 400 })) ∧
    (processOne stIdle { dir := "imgs", name := "a.jpg" } 400).1.writes =
      stIdle.writes :=
  at_threshold_file_untouched (by decide) (by decide)

/-- C6: invoking the downscaler with a target height strictly greater than the
image's current height returns `False` after logging a warning, and performs
no write: the listing and the write list are exactly those of the input
state. -/
theorem downscale_on_smaller_image_refuses
    {st : St} {inFp outFp : Fp} {t : Nat} {img : Img}
    (h : pilOpen st inFp = Except.ok img)
    (hlt : img.height < t) :
    resize_down_image_height st inFp outFp t =
      (logEv st (Event.warnTooSmall img.height t), Except.ok false) ∧
    (logEv st (Event.warnTooSmall img.height t)).entries = st.entries ∧
    (logEv st (Event.warnTooSmall img.height t)).writes = st.writes :=
  ⟨resize_down_warn h hlt, rfl, rfl⟩

/-- C6 (witness): asking the downscaler to bring a 100x100 image "down" to 400
fails benignly and writes nothing. -/
theorem downscale_on_smaller_image_refuses_witness :
    resize_down_image_height stSmall { dir := "imgs", name := "a.jpg" }
        { dir := "imgs", name := "a.jpg" } 400 =
      (logEv stSmall (Event.warnTooSmall
        { width := 100, height := 100 : Img }.height 400), Except.ok false) ∧
    (logEv stSmall (Event.warnTooSmall
      { width := 100, height := 100 : Img }.height 400)).entries = stSmall.entries ∧
    (logEv stSmall (Event.warnTooSmall
      { width := 100, height := 100 : Img }.height 400)).writes = stSmall.writes :=
  @downscale_on_smaller_image_refuses stSmall { dir := "imgs", name := "a.jpg" }
    { dir := "imgs", name := "a.jpg" } 400 { width := 100, height := 100 }
    (by decide) (by decide)

/-- C7: the format normalizer never produces a JPEG.  `convert_img_to_jpg`
passes the format tag `"JPG"`, which is not among Pillow's registered save
formats (the conventional identifier is `"JPEG"`), so `Image.save` raises
`KeyError: 'JPG'` on every input: on a 200x400 `a.png` the call returns the
state unchanged with the error, and the whole pipeline run on that directory
aborts with the same error, writing nothing. -/
theorem convert_to_jpg_always_raises_keyerror :
    convert_img_to_jpg stPng { dir := "imgs", name := "a.png" }
        { dir := "imgs", name := "a.png" } 90 =
      (stPng, Except.error (PyErr.keyError "JPG")) ∧
    (upperStr "JPG" ∈ pilSaveFormats) = False ∧
    (process_supermarket_images stPng "imgs" 400).2 =
      Except.error (PyErr.keyError "JPG") ∧
    (process_supermarket_images stPng "imgs" 400).1.writes = [] := by
  decide

/-- C8 (counterexample): the scanner does not return only regular files, and
its case-insensitivity is one-sided.  A subdirectory named `sub.png` is
returned alongside `a.PNG`; and with the accepted set `[".PNG"]` nothing is
returned although `a.PNG` matches it case-insensitively (only the file's
suffix is lowercased, never the accepted extensions). -/
theorem scanner_returns_subdirectory_and_misses_uppercase_ext :
    (list_image_fps stScan "imgs" [".png", ".jpg"]).2 =
      [{ dir := "imgs", name := "sub.png" }, { dir := "imgs", name := "a.PNG" }] ∧
    lookupEntry stScan { dir := "imgs", name := "sub.png" } = some Entry.dir ∧
    (list_image_fps stScan "imgs" [".PNG"]).2 = [] ∧
    lowerStr (nameSuffix "a.PNG") = ".png" := by
  decide

/-- C8 (amended): for a path that is not an existing directory the scanner
logs an error and returns the empty list without raising; for an existing
directory it returns exactly the entries — of any kind, subdirectories
included, the kind is never checked — whose name's lowercased suffix lies in
the accepted set, each prefixed with the directory path, and it does not
descend into subdirectories. -/
theorem scanner_membership_characterization :
    (∀ (st : St) (d : String) (exts : List String),
      ¬ (d = st.dirPath ∧ st.isDir = true) →
      list_image_fps st d exts = (logEv st (Event.errInvalidDir d), [])) ∧
    (∀ (st : St) (d : String) (exts : List String) (fp : Fp),
      d = st.dirPath → st.isDir = true →
      (fp ∈ (list_image_fps st d exts).2 ↔
        fp.dir = d ∧ ∃ e, (fp.name, e) ∈ st.entries ∧
          lowerStr (nameSuffix fp.name) ∈ exts)) := by
  constructor
  · intro st d exts hc
    unfold list_image_fps
    rw [if_neg hc]
  · intro st d exts fp h1 h2
    exact list_image_fps_mem h1 h2

/-- C8 (witness): the invalid-directory branch at a concrete non-directory,
and the membership characterization at the concrete `a.PNG` entry. -/
theorem scanner_membership_characterization_witness :
    list_image_fps stNoDir "elsewhere" [".png"] =
      (logEv stNoDir (Event.errInvalidDir "elsewhere"), []) ∧
    ({ dir := "imgs", name := "a.PNG" } : Fp) ∈
        (list_image_fps stScan "imgs" [".png", ".jpg"]).2 :=
  ⟨scanner_membership_characterization.1 stNoDir "elsewhere" [".png"] (by decide),
   (scanner_membership_characterization.2 stScan "imgs" [".png", ".jpg"]
      { dir := "imgs", name := "a.PNG" } (by decide) (by decide)).2
     (by exact ⟨rfl, Entry.file (some { width := 500, height := 500 }),
        by decide, by decide⟩)⟩

/-- C9: every `upscale_image` invocation that returns (rather than raising)
returns `True`; consequently the orchestrator's branch that logs "Failed to
upscale image" is unreachable — no run of `process_supermarket_images`,
however it ends, ever adds that warning to the log. -/
theorem upscale_never_reports_failure :
    (∀ (st : St) (a b : Fp) (st2 : St) (r : Bool),
      upscale_image st a b = (st2, Except.ok r) → r = true) ∧
    (∀ (st : St) (imgDir : String) (mh : Nat) (stf : St)
        (r : Except PyErr Bool) (w : Fp),
      process_supermarket_images st imgDir mh = (stf, r) →
      Event.warnFailedUpscale w ∉ st.log →
      Event.warnFailedUpscale w ∉ stf.log) :=
  ⟨fun _ _ _ _ _ h => upscale_ok_true h,
   fun _ _ _ _ _ _ h hw => process_no_upwarn h hw⟩

/-- C9 (witness): the upscaler returns `True` on the concrete 100x100 file,
and the concrete batch run (which downscales `c.jpg` and skips `sub.png`)
never logs the failed-upscale warning. -/
theorem upscale_never_reports_failure_witness :
    (true = true) ∧
    Event.warnFailedUpscale { dir := "imgs", name := "c.jpg" } ∉
      (process_supermarket_images stMix "imgs" 400).1.log :=
  ⟨upscale_never_reports_failure.1 stSmall { dir := "imgs", name := "a.jpg" }
      { dir := "imgs", name := "a.jpg" }
      (upscale_image stSmall { dir := "imgs", name := "a.jpg" }
        { dir := "imgs", name := "a.jpg" }).1 true (by decide),
   upscale_never_reports_failure.2 stMix "imgs" 400
      (process_supermarket_images stMix "imgs" 400).1
      (process_supermarket_images stMix "imgs" 400).2
      { dir := "imgs", name := "c.jpg" } rfl (by decide)⟩

/-- C10: a file whose suffix is an upper- or mixed-case variant of `.png` or
`.jpg` (its lowercased suffix is accepted but differs from the original) is
discovered by the scanner, yet the format-normalization trigger — the
case-sensitive comparison of the original suffix against `.png`/`.jpeg` — is
false for it, so the convert phase is a no-op on that file in any state. -/
theorem uppercase_suffix_discovered_but_never_normalized :
    ∀ (st : St) (n : String) (e : Entry), st.isDir = true →
      (n, e) ∈ st.entries →
      lowerStr (nameSuffix n) ∈ [".png", ".jpg"] →
      nameSuffix n ≠ lowerStr (nameSuffix n) →
      ({ dir := st.dirPath, name := n } : Fp) ∈
        (list_image_fps st st.dirPath [".png", ".jpg"]).2 ∧
      convertTrigger { dir := st.dirPath, name := n } = false ∧
      (∀ st2 : St, phaseConvert st2 { dir := st.dirPath, name := n } =
        (st2, Except.ok ())) := by
  intro st n e hisdir hmem hlow hne
  have hnotrig : nameSuffix n ∉ [".png", ".jpeg"] := by
    intro hmem2
    simp only [List.mem_cons, List.mem_singleton, List.not_mem_nil,
      or_false] at hmem2
    rcases hmem2 with hx | hx
    · apply hne
      rw [hx]
      decide
    · rw [hx] at hlow
      exact absurd hlow (by decide)
  have htrig : convertTrigger { dir := st.dirPath, name := n } = false := by
    unfold convertTrigger
    simp only [decide_eq_false_iff_not]
    exact hnotrig
  refine ⟨?_, htrig, fun st2 => phaseConvert_of_no (by simp [htrig])⟩
  rw [list_image_fps_mem rfl hisdir]
  exact ⟨rfl, e, hmem, hlow⟩

/-- C10 (witness): the concrete `a.PNG` file: scanned, trigger false, convert
phase a no-op. -/
theorem uppercase_suffix_discovered_but_never_normalized_witness :
    ({ dir := "imgs", name := "a.PNG" } : Fp) ∈
      (list_image_fps stScan "imgs" [".png", ".jpg"]).2 ∧
    convertTrigger { dir := "imgs", name := "a.PNG" } = false ∧
    (∀ st2 : St, phaseConvert st2 { dir := "imgs", name := "a.PNG" } =
      (st2, Except.ok ())) :=
  uppercase_suffix_discovered_but_never_normalized stScan "a.PNG"
    (Entry.file (some { width := 500, height := 500 })) (by decide)
    (by decide) (by decide) (by decide)

end ImgPipeline
